import Mathlib

/-!
Verification of the WASM SDF raymarching renderer (`src/wasm/renderer.c`).

The C code is shallowly embedded over exact rationals (`ℚ`): every `f32`
value is modelled as a rational, machine arithmetic (`+`, `-`, `*`, `/`,
comparisons, `min`/`max`/`abs`, clamping) is modelled by the corresponding
exact rational operation, and the hardware square-root instruction
(`wasm_f32x4_sqrt`, which is not a rational function) is abstracted as an
explicit function parameter `s : ℚ → ℚ` that both the scalar and the
batched forms receive.  4-lane SIMD vectors (`v128_t` holding 4 × f32) are
modelled as functions `Fin 4 → ℚ`, and each WASM lane-wise intrinsic
(`wasm_f32x4_add`, `wasm_f32x4_min`, ...) as the corresponding lane-wise
operation.
-/

/-- One 4-lane SIMD register of f32 values (`v128_t`), one rational per lane. -/
def V4 : Type := Fin 4 → ℚ

namespace V4

/-- Model of `wasm_f32x4_splat v` : all four lanes hold `v`. -/
def splat (v : ℚ) : V4 := fun _ => v

/-- Model of `wasm_f32x4_add` (lane-wise). -/
def add (a b : V4) : V4 := fun i => a i + b i

/-- Model of `wasm_f32x4_sub` (lane-wise). -/
def sub (a b : V4) : V4 := fun i => a i - b i

/-- Model of `wasm_f32x4_mul` (lane-wise). -/
def mul (a b : V4) : V4 := fun i => a i * b i

/-- Model of `wasm_f32x4_div` (lane-wise). -/
def div (a b : V4) : V4 := fun i => a i / b i

/-- Model of `wasm_f32x4_min` (lane-wise). -/
def min (a b : V4) : V4 := fun i => Min.min (a i) (b i)

/-- Model of `wasm_f32x4_max` (lane-wise). -/
def max (a b : V4) : V4 := fun i => Max.max (a i) (b i)

/-- Model of `wasm_f32x4_abs` (lane-wise). -/
def abs (a : V4) : V4 := fun i => |a i|

/-- Model of `wasm_f32x4_sqrt` (lane-wise), with the hardware square root abstracted
as the parameter `s`. -/
def sqrt (s : ℚ → ℚ) (a : V4) : V4 := fun i => s (a i)

instance : DecidableEq V4 := fun a b =>
  decidable_of_iff (∀ i, a i = b i) (by constructor <;> intro h <;> [exact funext h; exact fun i => congrFun h i])

end V4

/-! ## Scalar math helpers (`renderer.c`, lines 149-170) -/

/-- Model of `sqrtf_approx` : guard non-positive input to `0`, otherwise take the
hardware square root (`wasm_f32x4_sqrt` extract lane 0), abstracted as `s`. -/
def sqrtf_approx (s : ℚ → ℚ) (x : ℚ) : ℚ := if x ≤ 0 then 0 else s x

/-- Model of `maxf(a, b) = a > b ? a : b`. -/
def maxf (a b : ℚ) : ℚ := if a > b then a else b

/-- Model of `minf(a, b) = a < b ? a : b`. -/
def minf (a b : ℚ) : ℚ := if a < b then a else b

/-- Model of `clampf(x, lo, hi) = minf(maxf(x, lo), hi)`. -/
def clampf (x lo hi : ℚ) : ℚ := minf (maxf x lo) hi

/-- Model of `absf(x) = x < 0 ? -x : x`. -/
def absf (x : ℚ) : ℚ := if x < 0 then -x else x

theorem maxf_eq_max (a b : ℚ) : maxf a b = Max.max a b := by
  unfold maxf
  rcases lt_trichotomy a b with h | h | h
  · simp [not_lt.mpr h.le, max_eq_right h.le]
  · simp [h]
  · simp [h, max_eq_left h.le]

theorem minf_eq_min (a b : ℚ) : minf a b = Min.min a b := by
  unfold minf
  rcases lt_trichotomy a b with h | h | h
  · simp [h, min_eq_left h.le]
  · simp [h]
  · simp [not_lt.mpr h.le, min_eq_right h.le]

/-! ## Smooth union (`renderer.c`, lines 225-228 and 285-300) -/

/-- Model of `sdf_smooth_union(d1, d2, k)`:
`h = clampf(0.5 + 0.5*(d2-d1)/k, 0, 1); return d2 + (d1-d2)*h - k*h*(1-h)`. -/
def sdf_smooth_union (d1 d2 k : ℚ) : ℚ :=
  let h := clampf (0.5 + 0.5 * (d2 - d1) / k) 0 1
  d2 + (d1 - d2) * h - k * h * (1 - h)

/-- Model of `sdf_smooth_union_simd(d1, d2, k)` : the 4-lane form;
`h = max(0, min(1, 0.5 + 0.5*(d2-d1)/k))`, result `d2 + ((d1-d2)*h - k*h*(1-h))`. -/
def sdf_smooth_union_simd (d1 d2 k : V4) : V4 :=
  let half := V4.splat 0.5
  let one := V4.splat 1
  let zero := V4.splat 0
  let diff := V4.sub d2 d1
  let h0 := V4.add half (V4.mul half (V4.div diff k))
  let h := V4.max zero (V4.min one h0)
  V4.add d2
    (V4.sub
      (V4.mul (V4.sub d1 d2) h)
      (V4.mul k (V4.mul h (V4.sub one h))))

/-! ### Spec-side formulas for the smooth-union claim

The spec states the smooth union as
`h = clamp(0.5 + 0.5*(d2-d1)/k, 0, 1); result = lerp(d1,d2,h) - k*h*(1-h)`.
These definitions follow the spec's words, with `lerp` in its standard
meaning `lerp(a,b,t) = a + (b-a)*t` (so `lerp(a,b,0) = a`, `lerp(a,b,1) = b`). -/

/-- Standard linear interpolation: `lerp(a, b, t) = a + (b - a) * t`. -/
def lerp (a b t : ℚ) : ℚ := a + (b - a) * t

/-- Spec-side clamp: `clamp(x, lo, hi) = min(max(x, lo), hi)`. -/
def spec_clamp (x lo hi : ℚ) : ℚ := Min.min (Max.max x lo) hi

/-- The spec's `h` for the smooth union: `clamp(0.5 + 0.5*(d2-d1)/k, 0, 1)`. -/
def spec_h (d1 d2 k : ℚ) : ℚ := spec_clamp (0.5 + 0.5 * (d2 - d1) / k) 0 1

/-- The smooth union exactly as the spec sentence reads:
`lerp(d1, d2, h) - k*h*(1-h)`. -/
def spec_smooth_union (d1 d2 k : ℚ) : ℚ :=
  lerp d1 d2 (spec_h d1 d2 k) - k * spec_h d1 d2 k * (1 - spec_h d1 d2 k)

theorem clampf_eq_spec_clamp (x lo hi : ℚ) : clampf x lo hi = spec_clamp x lo hi := by
  unfold clampf spec_clamp
  rw [maxf_eq_max, minf_eq_min]

/-- The clamp `max 0 (min 1 x)` (the SIMD order) agrees with
`min (max x 0) 1` (the scalar clamp order). -/
theorem clamp01_orders (x : ℚ) : Max.max 0 (Min.min 1 x) = Min.min (Max.max x 0) 1 := by
  simp only [min_def, max_def]
  split_ifs <;> linarith

/-- Each lane of the 4-lane smooth union equals the scalar smooth union on
that lane's values (the SIMD clamp order `max 0 (min 1 ·)` agrees with the
scalar `clampf`, and `0.5*(d2-d1)/k` associates identically over `ℚ`). -/
theorem sdf_smooth_union_simd_lane (d1 d2 k : V4) (i : Fin 4) :
    sdf_smooth_union_simd d1 d2 k i = sdf_smooth_union (d1 i) (d2 i) (k i) := by
  simp only [sdf_smooth_union_simd, sdf_smooth_union, V4.add, V4.sub, V4.mul,
    V4.div, V4.max, V4.min, V4.splat]
  rw [clampf_eq_spec_clamp]
  unfold spec_clamp
  rw [clamp01_orders, mul_div_assoc]
  ring

/-- Clamping `1 - u` to `[0,1]` with `clampf` is `1` minus the clamp of `u`. -/
theorem clampf01_one_sub (u : ℚ) : clampf (1 - u) 0 1 = 1 - clampf u 0 1 := by
  simp only [clampf, minf, maxf]
  split_ifs <;> linarith

/-- C1 (counterexample): with `lerp` in its standard meaning
`lerp(a,b,t) = a + (b-a)*t`, the code's smooth union does not return
`lerp(d1,d2,h) - k*h*(1-h)`: at `d1 = 0`, `d2 = 1`, `k = 1` the code
returns `0` while the spec formula gives `1`. -/
theorem c1_smooth_union_lerp_counterexample :
    sdf_smooth_union 0 1 1 ≠ spec_smooth_union 0 1 1 := by
  norm_num [sdf_smooth_union, spec_smooth_union, spec_h, spec_clamp, clampf,
    minf, maxf, lerp]

/-- C1 (amended): for all `d1`, `d2` and `k > 0`, the smooth-union operator
(scalar `sdf_smooth_union` and every lane of `sdf_smooth_union_simd` alike)
returns `lerp(d2,d1,h) - k*h*(1-h)` — interpolating from `d2` toward `d1` —
where `h = clamp(0.5 + 0.5*(d2-d1)/k, 0, 1)`. -/
theorem c1_smooth_union_formula (d1 d2 k : ℚ) (hk : 0 < k) :
    (sdf_smooth_union d1 d2 k
        = lerp d2 d1 (spec_h d1 d2 k)
          - k * spec_h d1 d2 k * (1 - spec_h d1 d2 k))
    ∧ ∀ (v1 v2 : V4) (i : Fin 4),
        sdf_smooth_union_simd v1 v2 (V4.splat k) i
          = lerp (v2 i) (v1 i) (spec_h (v1 i) (v2 i) k)
            - k * spec_h (v1 i) (v2 i) k * (1 - spec_h (v1 i) (v2 i) k) := by
  constructor
  · simp only [sdf_smooth_union, spec_h, lerp, clampf_eq_spec_clamp]
    try ring
  · intro v1 v2 i
    rw [sdf_smooth_union_simd_lane]
    simp only [sdf_smooth_union, spec_h, lerp, clampf_eq_spec_clamp, V4.splat]
    try ring

/-- Witness for C1 (amended) at `d1 = 0`, `d2 = 1`, `k = 1`. -/
theorem c1_smooth_union_formula_witness :
    (sdf_smooth_union 0 1 1
        = lerp 1 0 (spec_h 0 1 1) - 1 * spec_h 0 1 1 * (1 - spec_h 0 1 1))
    ∧ sdf_smooth_union_simd (V4.splat 0) (V4.splat 1) (V4.splat 1) 0
        = lerp (V4.splat 1 0) (V4.splat 0 0) (spec_h (V4.splat 0 0) (V4.splat 1 0) 1)
          - 1 * spec_h (V4.splat 0 0) (V4.splat 1 0) 1
            * (1 - spec_h (V4.splat 0 0) (V4.splat 1 0) 1) :=
  ⟨(c1_smooth_union_formula 0 1 1 one_pos).1,
   (c1_smooth_union_formula 0 1 1 one_pos).2 (V4.splat 0) (V4.splat 1) 0⟩

/-- C8: the smooth union is commutative: for all `d1`, `d2` and `k > 0`,
`sdf_smooth_union d1 d2 k = sdf_smooth_union d2 d1 k` (exactly, over the
exact-arithmetic model). -/
theorem c8_smooth_union_comm (d1 d2 k : ℚ) (hk : 0 < k) :
    sdf_smooth_union d1 d2 k = sdf_smooth_union d2 d1 k := by
  simp only [sdf_smooth_union]
  have hu : (0.5 : ℚ) + 0.5 * (d1 - d2) / k = 1 - (0.5 + 0.5 * (d2 - d1) / k) := by
    ring
  rw [hu, clampf01_one_sub]
  ring

/-- Witness for C8 at `d1 = 1`, `d2 = 2`, `k = 1`. -/
theorem c8_smooth_union_comm_witness :
    sdf_smooth_union 1 2 1 = sdf_smooth_union 2 1 1 :=
  c8_smooth_union_comm 1 2 1 one_pos

/-! ## SDF primitives (`renderer.c`, scalar: lines 193-223, SIMD: lines 234-283) -/

/-- Model of `sdf_sphere_scalar` : `sqrtf_approx(dx*dx + dy*dy + dz*dz) - r`. -/
def sdf_sphere_scalar (s : ℚ → ℚ) (px py pz cx cy cz r : ℚ) : ℚ :=
  let dx := px - cx
  let dy := py - cy
  let dz := pz - cz
  sqrtf_approx s (dx * dx + dy * dy + dz * dz) - r

/-- Model of `sdf_box_scalar` (`b_y` stands for the C parameter `by`, a Lean keyword). -/
def sdf_box_scalar (s : ℚ → ℚ) (px py pz cx cy cz bx b_y bz : ℚ) : ℚ :=
  let dx := absf (px - cx) - bx
  let dy := absf (py - cy) - b_y
  let dz := absf (pz - cz) - bz
  let dx_pos := maxf dx 0
  let dy_pos := maxf dy 0
  let dz_pos := maxf dz 0
  let outside := sqrtf_approx s (dx_pos * dx_pos + dy_pos * dy_pos + dz_pos * dz_pos)
  let inside := minf (maxf dx (maxf dy dz)) 0
  outside + inside

/-- Model of `sdf_cylinder_scalar` : X-aligned cylinder, radius `r`, half-height `h`. -/
def sdf_cylinder_scalar (s : ℚ → ℚ) (px py pz cx cy cz r h : ℚ) : ℚ :=
  let dy := py - cy
  let dz := pz - cz
  let d_radial := sqrtf_approx s (dy * dy + dz * dz) - r
  let d_axial := absf (px - cx) - h
  let d_radial_pos := maxf d_radial 0
  let d_axial_pos := maxf d_axial 0
  let outside := sqrtf_approx s (d_radial_pos * d_radial_pos + d_axial_pos * d_axial_pos)
  let inside := minf (maxf d_radial d_axial) 0
  outside + inside

/-- Model of `sdf_sphere_simd` : the 4-lane batched sphere SDF. -/
def sdf_sphere_simd (s : ℚ → ℚ) (px py pz cx cy cz r : V4) : V4 :=
  let dx := V4.sub px cx
  let dy := V4.sub py cy
  let dz := V4.sub pz cz
  let len_sq := V4.add (V4.add (V4.mul dx dx) (V4.mul dy dy)) (V4.mul dz dz)
  V4.sub (V4.sqrt s len_sq) r

/-- Model of `sdf_box_simd` : the 4-lane batched box SDF. -/
def sdf_box_simd (s : ℚ → ℚ) (px py pz cx cy cz bx b_y bz : V4) : V4 :=
  let dx := V4.sub (V4.abs (V4.sub px cx)) bx
  let dy := V4.sub (V4.abs (V4.sub py cy)) b_y
  let dz := V4.sub (V4.abs (V4.sub pz cz)) bz
  let zero := V4.splat 0
  let dx_pos := V4.max dx zero
  let dy_pos := V4.max dy zero
  let dz_pos := V4.max dz zero
  let outside := V4.sqrt s (V4.add (V4.add
    (V4.mul dx_pos dx_pos) (V4.mul dy_pos dy_pos)) (V4.mul dz_pos dz_pos))
  let inside := V4.min (V4.max dx (V4.max dy dz)) zero
  V4.add outside inside

/-- Model of `sdf_cylinder_simd` : the 4-lane batched X-aligned cylinder SDF. -/
def sdf_cylinder_simd (s : ℚ → ℚ) (px py pz cx cy cz r h : V4) : V4 :=
  let dy := V4.sub py cy
  let dz := V4.sub pz cz
  let radial_sq := V4.add (V4.mul dy dy) (V4.mul dz dz)
  let d_radial := V4.sub (V4.sqrt s radial_sq) r
  let d_axial := V4.sub (V4.abs (V4.sub px cx)) h
  let zero := V4.splat 0
  let d_radial_pos := V4.max d_radial zero
  let d_axial_pos := V4.max d_axial zero
  let outside := V4.sqrt s (V4.add
    (V4.mul d_radial_pos d_radial_pos) (V4.mul d_axial_pos d_axial_pos))
  let inside := V4.min (V4.max d_radial d_axial) zero
  V4.add outside inside

theorem absf_eq_abs (x : ℚ) : absf x = |x| := by
  unfold absf
  split_ifs with h
  · exact (abs_of_neg h).symm
  · exact (abs_of_nonneg (not_lt.mp h)).symm

/-- On nonnegative inputs the guarded scalar `sqrtf_approx` agrees with the
raw hardware square root `s` (since `s 0 = 0` for the hardware instruction). -/
theorem sqrtf_approx_of_nonneg (s : ℚ → ℚ) (hs : s 0 = 0) {x : ℚ} (hx : 0 ≤ x) :
    sqrtf_approx s x = s x := by
  unfold sqrtf_approx
  split_ifs with h
  · rw [le_antisymm h hx, hs]
  · rfl

/-- C3: for every scalar/batched primitive pair (sphere, box, X-aligned
cylinder) and every batch of 4 query points, evaluating each lane with the
scalar form yields, lane for lane, exactly the batched call's result (over
the exact-arithmetic model, where the batched reduction order is equal, the
hardware square root `s` being any function with `s 0 = 0`). -/
theorem c3_primitive_scalar_simd_agree (s : ℚ → ℚ) (hs : s 0 = 0) :
    (∀ (px py pz cx cy cz r : V4) (i : Fin 4),
        sdf_sphere_simd s px py pz cx cy cz r i
          = sdf_sphere_scalar s (px i) (py i) (pz i) (cx i) (cy i) (cz i) (r i))
    ∧ (∀ (px py pz cx cy cz bx b_y bz : V4) (i : Fin 4),
        sdf_box_simd s px py pz cx cy cz bx b_y bz i
          = sdf_box_scalar s (px i) (py i) (pz i) (cx i) (cy i) (cz i)
              (bx i) (b_y i) (bz i))
    ∧ (∀ (px py pz cx cy cz r h : V4) (i : Fin 4),
        sdf_cylinder_simd s px py pz cx cy cz r h i
          = sdf_cylinder_scalar s (px i) (py i) (pz i) (cx i) (cy i) (cz i)
              (r i) (h i)) := by
  refine ⟨fun px py pz cx cy cz r i => ?_,
          fun px py pz cx cy cz bx b_y bz i => ?_,
          fun px py pz cx cy cz r h i => ?_⟩
  · simp only [sdf_sphere_simd, sdf_sphere_scalar, V4.sub, V4.add, V4.mul, V4.sqrt]
    rw [sqrtf_approx_of_nonneg s hs
      (add_nonneg (add_nonneg (mul_self_nonneg _) (mul_self_nonneg _)) (mul_self_nonneg _))]
  · simp only [sdf_box_simd, sdf_box_scalar, V4.sub, V4.add, V4.mul, V4.sqrt,
      V4.abs, V4.max, V4.min, V4.splat, absf_eq_abs, maxf_eq_max, minf_eq_min]
    rw [sqrtf_approx_of_nonneg s hs
      (add_nonneg (add_nonneg (mul_self_nonneg _) (mul_self_nonneg _)) (mul_self_nonneg _))]
  · simp only [sdf_cylinder_simd, sdf_cylinder_scalar, V4.sub, V4.add, V4.mul,
      V4.sqrt, V4.abs, V4.max, V4.min, V4.splat, absf_eq_abs, maxf_eq_max, minf_eq_min]
    rw [sqrtf_approx_of_nonneg s hs
        (add_nonneg (mul_self_nonneg _) (mul_self_nonneg _)),
      sqrtf_approx_of_nonneg s hs
        (add_nonneg (mul_self_nonneg _) (mul_self_nonneg _))]

/-- Witness for C3: the hardware square root instantiated with the identity
function, one concrete lane of a concrete batch for each primitive. -/
theorem c3_primitive_scalar_simd_agree_witness :
    (sdf_sphere_simd (fun x => x) (V4.splat 2) (V4.splat 0) (V4.splat 0)
        (V4.splat 0) (V4.splat 0) (V4.splat 0) (V4.splat 1) 0
      = sdf_sphere_scalar (fun x => x) (V4.splat 2 0) (V4.splat 0 0) (V4.splat 0 0)
          (V4.splat 0 0) (V4.splat 0 0) (V4.splat 0 0) (V4.splat 1 0))
    ∧ (sdf_box_simd (fun x => x) (V4.splat 3) (V4.splat 1) (V4.splat 1)
        (V4.splat 0) (V4.splat 0) (V4.splat 0) (V4.splat 1) (V4.splat 1) (V4.splat 1) 0
      = sdf_box_scalar (fun x => x) (V4.splat 3 0) (V4.splat 1 0) (V4.splat 1 0)
          (V4.splat 0 0) (V4.splat 0 0) (V4.splat 0 0)
          (V4.splat 1 0) (V4.splat 1 0) (V4.splat 1 0))
    ∧ (sdf_cylinder_simd (fun x => x) (V4.splat 3) (V4.splat 1) (V4.splat 1)
        (V4.splat 0) (V4.splat 0) (V4.splat 0) (V4.splat 1) (V4.splat 2) 0
      = sdf_cylinder_scalar (fun x => x) (V4.splat 3 0) (V4.splat 1 0) (V4.splat 1 0)
          (V4.splat 0 0) (V4.splat 0 0) (V4.splat 0 0)
          (V4.splat 1 0) (V4.splat 2 0)) :=
  ⟨(c3_primitive_scalar_simd_agree (fun x => x) rfl).1 (V4.splat 2) (V4.splat 0)
      (V4.splat 0) (V4.splat 0) (V4.splat 0) (V4.splat 0) (V4.splat 1) 0,
   (c3_primitive_scalar_simd_agree (fun x => x) rfl).2.1 (V4.splat 3) (V4.splat 1)
      (V4.splat 1) (V4.splat 0) (V4.splat 0) (V4.splat 0) (V4.splat 1)
      (V4.splat 1) (V4.splat 1) 0,
   (c3_primitive_scalar_simd_agree (fun x => x) rfl).2.2 (V4.splat 3) (V4.splat 1)
      (V4.splat 1) (V4.splat 0) (V4.splat 0) (V4.splat 0) (V4.splat 1)
      (V4.splat 2) 0⟩

/-! ## Scene model and scene SDF (`renderer.c`, lines 79-95, 307-319, 345-387) -/

/-- One entry of the shape table: `shape_types[i]`, the center
(`shape_positions` / splatted `shape_cx/cy/cz`), the first three parameters
(splatted `shape_p0/p1/p2`) and `shape_groups[i]`.  Shape colors play no
role in the claims under proof and are omitted. -/
structure Shape where
  kind : Nat
  cx : ℚ
  cy : ℚ
  cz : ℚ
  p0 : ℚ
  p1 : ℚ
  p2 : ℚ
  group : Nat
deriving DecidableEq

/-- Model of `eval_shape_simd` : dispatch on `shape_types[i]` — `SHAPE_SPHERE` (0)
gives the sphere, `SHAPE_CYLINDER` (2) the cylinder, anything else the box. -/
def eval_shape_simd (s : ℚ → ℚ) (sh : Shape) (px py pz : V4) : V4 :=
  let cx := V4.splat sh.cx
  let cy := V4.splat sh.cy
  let cz := V4.splat sh.cz
  if sh.kind = 0 then
    sdf_sphere_simd s px py pz cx cy cz (V4.splat sh.p0)
  else if sh.kind = 2 then
    sdf_cylinder_simd s px py pz cx cy cz (V4.splat sh.p0) (V4.splat sh.p1)
  else
    sdf_box_simd s px py pz cx cy cz (V4.splat sh.p0) (V4.splat sh.p1) (V4.splat sh.p2)

/-- The `group_dists` array together with its `group_initialized` flags:
`none` = the slot is still uninitialized. -/
def GroupTable : Type := Nat → Option V4

/-- All `group_initialized` flags start at `0`. -/
def GroupTable.empty : GroupTable := fun _ => none

/-- Store a running distance into one group slot (and set its flag). -/
def GroupTable.write (t : GroupTable) (g : Nat) (d : V4) : GroupTable :=
  fun g' => if g' = g then some d else t g'

/-- One iteration of pass 1 of `scene_sdf_simd` : shape with group field
`g0` and evaluated distance `d` folds into its group's slot.  `blend` is the
`group_blend_mode` table (`0` = hard union, anything else = smooth union). -/
def scene_pass1_step (blend : Nat → Nat) (group_count : Nat) (k : V4)
    (t : GroupTable) (g0 : Nat) (d : V4) : GroupTable :=
  let g := if g0 ≥ group_count then 0 else g0
  match t g with
  | none => t.write g d
  | some cur =>
      if blend g = 0 then t.write g (V4.min cur d)
      else t.write g (sdf_smooth_union_simd cur d k)

/-- Pass 1 of `scene_sdf_simd` : fold every `(group, distance)` pair, in
shape-table order, into the group table. -/
def scene_pass1 (blend : Nat → Nat) (group_count : Nat) (k : V4) :
    List (Nat × V4) → GroupTable → GroupTable
  | [], t => t
  | (g0, d) :: rest, t =>
      scene_pass1 blend group_count k rest (scene_pass1_step blend group_count k t g0 d)

/-- One iteration of pass 2: `(result, first)` mirror the C locals. -/
def scene_pass2_step (k : V4) (t : GroupTable) (acc : V4 × Bool) (g : Nat) : V4 × Bool :=
  match t g with
  | none => acc
  | some d => if acc.2 then (d, false) else (sdf_smooth_union_simd acc.1 d k, false)

/-- Pass 2 of `scene_sdf_simd` : combine all initialized groups with smooth
union, ascending group index, starting from `result = MAX_DIST`, `first = 1`. -/
def scene_pass2 (group_count : Nat) (k : V4) (t : GroupTable) : V4 :=
  ((List.range group_count).foldl (scene_pass2_step k t) (V4.splat 100, true)).1

/-- Model of `scene_sdf_simd(px, py, pz)` : `MAX_DIST` for an empty scene, otherwise
pass 1 over the shape table followed by pass 2 over the group table.
`blend` is the `group_blend_mode` table and `k` the scene's `smooth_k`. -/
def scene_sdf_simd (s : ℚ → ℚ) (shapes : List Shape) (blend : Nat → Nat)
    (group_count : Nat) (k : ℚ) (px py pz : V4) : V4 :=
  if shapes = [] then V4.splat 100
  else
    scene_pass2 group_count (V4.splat k)
      (scene_pass1 blend group_count (V4.splat k)
        (shapes.map fun sh => (sh.group, eval_shape_simd s sh px py pz))
        GroupTable.empty)

/-! ### Spec-side two-pass reference for the scene SDF

These definitions follow the words of the spec's scene-SDF description:
per-group folds of the shapes assigned to each group (a shape whose group
index is out of range belongs to group 0), then a smooth-union fold of the
touched groups in ascending index order seeded by the first touched one. -/

/-- Spec reference: the group a shape with group field `g0` lands in. -/
def spec_shape_group (group_count g0 : Nat) : Nat :=
  if g0 ≥ group_count then 0 else g0

/-- Spec reference: a group's distance — the distances of the shapes
assigned to it, in shape-table order, seeded by the first and folded by the
group's blend mode; `none` when the group is untouched. -/
def spec_group_dist (blend : Nat → Nat) (group_count : Nat) (k : V4)
    (shapes : List (Nat × V4)) (g : Nat) : Option V4 :=
  match (shapes.filter fun sd => spec_shape_group group_count sd.1 = g).map Prod.snd with
  | [] => none
  | d :: rest =>
      some (rest.foldl
        (fun acc d' => if blend g = 0 then V4.min acc d' else sdf_smooth_union_simd acc d' k) d)

/-- Spec reference: fold the touched groups' distances with smooth union in
ascending group-index order, seeded by the first touched group; the
max-distance sentinel when no group is touched. -/
def spec_scene_combine (blend : Nat → Nat) (group_count : Nat) (k : V4)
    (shapes : List (Nat × V4)) : V4 :=
  match (List.range group_count).filterMap (spec_group_dist blend group_count k shapes) with
  | [] => V4.splat 100
  | d :: rest => rest.foldl (fun acc d' => sdf_smooth_union_simd acc d' k) d

/-- Spec reference, at a query point: evaluate each shape's primitive
distance in shape-table order, then run the two-pass combination. -/
def spec_scene_sdf (s : ℚ → ℚ) (shapes : List Shape) (blend : Nat → Nat)
    (group_count : Nat) (k : ℚ) (px py pz : V4) : V4 :=
  spec_scene_combine blend group_count (V4.splat k)
    (shapes.map fun sh => (sh.group, eval_shape_simd s sh px py pz))

/-- Helper for relating pass 1 to the per-group folds: feed a list of
distances into one group slot, seeding it if empty. -/
def scene_group_fold (blend : Nat → Nat) (g : Nat) (k : V4) :
    List V4 → Option V4 → Option V4
  | [], o => o
  | d :: rest, none => scene_group_fold blend g k rest (some d)
  | d :: rest, some cur =>
      scene_group_fold blend g k rest
        (some (if blend g = 0 then V4.min cur d else sdf_smooth_union_simd cur d k))

theorem scene_group_fold_some (blend : Nat → Nat) (g : Nat) (k : V4)
    (l : List V4) (cur : V4) :
    scene_group_fold blend g k l (some cur)
      = some (l.foldl
          (fun acc d' => if blend g = 0 then V4.min acc d' else sdf_smooth_union_simd acc d' k)
          cur) := by
  induction l generalizing cur with
  | nil => rfl
  | cons d rest ih => simp only [scene_group_fold, List.foldl_cons, ih]

/-- Pass 1, read back at group `g`, is the fold of exactly the shapes
assigned (after out-of-range fallback) to `g`, in table order. -/
theorem scene_pass1_read (blend : Nat → Nat) (group_count : Nat) (k : V4)
    (shapes : List (Nat × V4)) (t : GroupTable) (g : Nat) :
    scene_pass1 blend group_count k shapes t g
      = scene_group_fold blend g k
          ((shapes.filter fun sd => spec_shape_group group_count sd.1 = g).map Prod.snd)
          (t g) := by
  induction shapes generalizing t with
  | nil => rfl
  | cons sd rest ih =>
    obtain ⟨g0, d⟩ := sd
    rw [scene_pass1, ih]
    by_cases hg : spec_shape_group group_count g0 = g
    · have hfil : ((g0, d) :: rest).filter
          (fun sd => spec_shape_group group_count sd.1 = g)
          = (g0, d) :: rest.filter (fun sd => spec_shape_group group_count sd.1 = g) := by
        simp [List.filter_cons, hg]
      rw [hfil]
      simp only [List.map_cons]
      have hstep : scene_pass1_step blend group_count k t g0 d g
          = match t g with
            | none => some d
            | some cur =>
                some (if blend g = 0 then V4.min cur d else sdf_smooth_union_simd cur d k) := by
        simp only [scene_pass1_step]
        have : (if g0 ≥ group_count then 0 else g0) = g := hg
        rw [this]
        cases t g with
        | none => simp [GroupTable.write]
        | some cur =>
          by_cases hb : blend g = 0 <;> simp [hb, GroupTable.write]
      rw [hstep]
      cases t g with
      | none => rfl
      | some cur => rfl
    · have hfil : ((g0, d) :: rest).filter
          (fun sd => spec_shape_group group_count sd.1 = g)
          = rest.filter (fun sd => spec_shape_group group_count sd.1 = g) := by
        simp [List.filter_cons, hg]
      rw [hfil]
      have hstep : scene_pass1_step blend group_count k t g0 d g = t g := by
        simp only [scene_pass1_step]
        have hne : g ≠ (if g0 ≥ group_count then 0 else g0) := fun h => hg h.symm
        cases t (if g0 ≥ group_count then 0 else g0) with
        | none => simp [GroupTable.write, hne]
        | some cur =>
          by_cases hb : blend (if g0 ≥ group_count then 0 else g0) = 0 <;>
            simp [hb, GroupTable.write, hne]
      rw [hstep]

/-- Pass 1 starting from the empty table, read back at `g`, is exactly the
spec's per-group distance. -/
theorem scene_pass1_empty_read (blend : Nat → Nat) (group_count : Nat) (k : V4)
    (shapes : List (Nat × V4)) (g : Nat) :
    scene_pass1 blend group_count k shapes GroupTable.empty g
      = spec_group_dist blend group_count k shapes g := by
  rw [scene_pass1_read]
  show scene_group_fold blend g k _ none = _
  rw [spec_group_dist]
  cases (shapes.filter fun sd => spec_shape_group group_count sd.1 = g).map Prod.snd with
  | nil => rfl
  | cons d rest => rw [scene_group_fold, scene_group_fold_some]

theorem scene_pass2_go_false (k : V4) (t : GroupTable) (gs : List Nat) (r : V4) :
    gs.foldl (scene_pass2_step k t) (r, false)
      = ((gs.filterMap t).foldl (fun acc d => sdf_smooth_union_simd acc d k) r, false) := by
  induction gs generalizing r with
  | nil => rfl
  | cons g gs ih =>
    rw [List.foldl_cons, List.filterMap_cons]
    cases h : t g with
    | none => simp only [scene_pass2_step, h]; exact ih r
    | some d => simp only [scene_pass2_step, h, List.foldl_cons]; exact ih _

theorem scene_pass2_go_first (k : V4) (t : GroupTable) (gs : List Nat) :
    gs.foldl (scene_pass2_step k t) (V4.splat 100, true)
      = match gs.filterMap t with
        | [] => (V4.splat 100, true)
        | d :: rest => (rest.foldl (fun acc d' => sdf_smooth_union_simd acc d' k) d, false) := by
  induction gs with
  | nil => rfl
  | cons g gs ih =>
    rw [List.foldl_cons, List.filterMap_cons]
    cases h : t g with
    | none => simp only [scene_pass2_step, h]; exact ih
    | some d => simp only [scene_pass2_step, h]; exact scene_pass2_go_false k t gs d

/-- C2: for every hardware square root `s`, committed scene (shape table,
blend-mode table, group count, smoothing coefficient) and every 4-lane batch
of query points, `scene_sdf_simd` equals the spec's two-pass reference:
per-shape primitive distances fold into their (out-of-range-corrected)
group's running distance in shape-table order — `min` for hard-union groups,
smooth union with the shared `k` otherwise, each group seeded by its first
shape — and the touched groups then fold by smooth union in ascending group
index, seeded by the first touched group, untouched groups contributing
nothing. -/
theorem c2_scene_sdf_matches_two_pass_reference (s : ℚ → ℚ) (shapes : List Shape)
    (blend : Nat → Nat) (group_count : Nat) (k : ℚ) (px py pz : V4) :
    scene_sdf_simd s shapes blend group_count k px py pz
      = spec_scene_sdf s shapes blend group_count k px py pz := by
  rw [scene_sdf_simd, spec_scene_sdf]
  by_cases hs : shapes = []
  · subst hs
    simp only [if_pos rfl, List.map_nil, spec_scene_combine]
    have hnone : ∀ g, spec_group_dist blend group_count (V4.splat k) [] g = none := by
      intro g; rfl
    rw [List.filterMap_congr (fun g _ => hnone g)]
    have hnil : List.filterMap (fun _ : ℕ => (none : Option V4)) (List.range group_count) = [] := by
      induction List.range group_count with
      | nil => rfl
      | cons a l ih => rw [List.filterMap_cons]; exact ih
    rw [hnil]
    simp
  · rw [if_neg hs, spec_scene_combine, scene_pass2]
    rw [List.filterMap_congr
      (fun g _ => (scene_pass1_empty_read blend group_count (V4.splat k)
        (shapes.map fun sh => (sh.group, eval_shape_simd s sh px py pz)) g).symm)]
    rw [scene_pass2_go_first]
    cases (List.range group_count).filterMap
        (scene_pass1 blend group_count (V4.splat k)
          (shapes.map fun sh => (sh.group, eval_shape_simd s sh px py pz))
          GroupTable.empty) with
    | nil => rfl
    | cons d rest => rfl

/-- C5: a committed scene with zero shapes yields the max-distance sentinel
`100.0` in every lane, at every query point. -/
theorem c5_empty_scene_max_dist (s : ℚ → ℚ) (blend : Nat → Nat)
    (group_count : Nat) (k : ℚ) (px py pz : V4) (i : Fin 4) :
    scene_sdf_simd s [] blend group_count k px py pz i = 100 := by
  rw [scene_sdf_simd, if_pos rfl]
  rfl

/-- C10: a committed scene with at least one shape but `group_count = 0`
yields the max-distance sentinel `100.0` in every lane at every query point:
every shape falls back to group 0 in pass 1, but pass 2 iterates over zero
groups, so the initial `MAX_DIST` accumulator is returned unchanged. -/
theorem c10_zero_groups_max_dist (s : ℚ → ℚ) (shapes : List Shape)
    (blend : Nat → Nat) (k : ℚ) (px py pz : V4)
    (h : 1 ≤ shapes.length) (i : Fin 4) :
    scene_sdf_simd s shapes blend 0 k px py pz i = 100 := by
  have hne : shapes ≠ [] := by
    intro hnil; rw [hnil] at h; exact absurd h (by simp)
  rw [scene_sdf_simd, if_neg hne]
  rfl

/-- Witness for C10: one concrete sphere in group 5, zero groups, the scene
SDF at the origin batch evaluates to `100` in lane 0. -/
theorem c10_zero_groups_max_dist_witness :
    scene_sdf_simd (fun x => x) [⟨0, 0, 0, 0, 1, 0, 0, 5⟩] (fun _ => 0) 0 1
      (V4.splat 0) (V4.splat 0) (V4.splat 0) 0 = 100 :=
  c10_zero_groups_max_dist (fun x => x) [⟨0, 0, 0, 0, 1, 0, 0, 5⟩] (fun _ => 0) 1
    (V4.splat 0) (V4.splat 0) (V4.splat 0) (by simp) 0

/-! ## Sphere-tracing march loop (`renderer.c`, lines 631-700)

One batch of 4 rays.  The scene SDF is abstracted as `sdf : V4 → V4 → V4 →
V4`; the loop's lane masking (`wasm_v128_and`, `wasm_v128_andnot`,
`wasm_v128_or` on comparison masks) is modelled with per-lane booleans, the
bitwise `dist & active` select as `if active then dist else 0`. -/

/-- Per-batch march state: lane positions, traveled distance (`total_dist`),
the active mask and the accumulated-hit mask. -/
structure MarchState where
  px : V4
  py : V4
  pz : V4
  total_dist : V4
  active : Fin 4 → Bool
  accumulated_hit : Fin 4 → Bool

/-- Batch entry state: positions at the ray origins, zero traveled distance,
all lanes active (`wasm_i32x4_splat(-1)`), no accumulated hits. -/
def MarchState.init (ox oy oz : V4) : MarchState :=
  { px := ox, py := oy, pz := oz, total_dist := V4.splat 0,
    active := fun _ => true, accumulated_hit := fun _ => false }

/-- First half of one loop iteration: evaluate the scene SDF at the current
positions, OR the fresh hit lanes (`dist < HIT_THRESHOLD = 0.001`) into
`accumulated_hit`, and AND-NOT hit or missed lanes (`total_dist > MAX_DIST =
100.0`, the distance accumulated before this step) out of `active`. -/
def marchMask (sdf : V4 → V4 → V4 → V4) (st : MarchState) : MarchState :=
  let dist := sdf st.px st.py st.pz
  let hit := fun i => decide (dist i < 0.001)
  let miss := fun i => decide (st.total_dist i > 100)
  { st with
    accumulated_hit := fun i => st.accumulated_hit i || hit i
    active := fun i => st.active i && !(hit i || miss i) }

/-- Model of `wasm_v128_any_true(active)`. -/
def anyActive (st : MarchState) : Bool :=
  st.active 0 || st.active 1 || st.active 2 || st.active 3

/-- Second half of one loop iteration: each still-active lane advances along
its direction by the evaluated distance (`step_dist = dist & active`: an
inactive lane's step is zero) and accumulates it into `total_dist`. -/
def marchAdvance (sdf : V4 → V4 → V4 → V4) (dx dy dz : V4) (st : MarchState) :
    MarchState :=
  let dist := sdf st.px st.py st.pz
  let step_dist := fun i => if st.active i then dist i else 0
  { st with
    px := fun i => st.px i + dx i * step_dist i
    py := fun i => st.py i + dy i * step_dist i
    pz := fun i => st.pz i + dz i * step_dist i
    total_dist := fun i => st.total_dist i + step_dist i }

/-- The march loop with fuel, returning the final state and the number of
iterations executed (`steps_this_batch`): each iteration masks, then breaks
if no lane remains active, otherwise advances and continues. -/
def marchGo (sdf : V4 → V4 → V4 → V4) (dx dy dz : V4) :
    Nat → MarchState → MarchState × Nat
  | 0, st => (st, 0)
  | fuel + 1, st =>
      let st1 := marchMask sdf st
      if anyActive st1 then
        let r := marchGo sdf dx dy dz fuel (marchAdvance sdf dx dy dz st1)
        (r.1, r.2 + 1)
      else (st1, 1)

/-- One batch of `march_rays` : the loop capped at `MAX_STEPS = 64`
iterations; the batch's reported per-lane hit flags are the final state's
`accumulated_hit` (`v128_t hit = accumulated_hit` after the loop). -/
def march_rays_batch (sdf : V4 → V4 → V4 → V4) (ox oy oz dx dy dz : V4) :
    MarchState × Nat :=
  marchGo sdf dx dy dz 64 (MarchState.init ox oy oz)

theorem marchMask_active_false (sdf : V4 → V4 → V4 → V4) (st : MarchState)
    (i : Fin 4) (h : st.active i = false) : (marchMask sdf st).active i = false := by
  simp [marchMask, h]

theorem marchAdvance_frozen (sdf : V4 → V4 → V4 → V4) (dx dy dz : V4)
    (st : MarchState) (i : Fin 4) (h : st.active i = false) :
    (marchAdvance sdf dx dy dz st).px i = st.px i
    ∧ (marchAdvance sdf dx dy dz st).py i = st.py i
    ∧ (marchAdvance sdf dx dy dz st).pz i = st.pz i
    ∧ (marchAdvance sdf dx dy dz st).total_dist i = st.total_dist i := by
  simp [marchAdvance, h]

/-- C4: during every `march_rays` batch — (1) once a lane is inactive
(transitioned to Hit or Miss) its position and traveled-distance accumulator
never change in any later step and it never re-activates; (2) the
accumulated-hit flag is sticky: a lane that ever hit is reported Hit at the
end of the loop regardless of later steps; (3) the loop runs at most
`MAX_STEPS = 64` iterations per batch; (4) the loop exits the moment all 4
lanes are inactive, returning right after the mask update of that iteration. -/
theorem c4_march_lane_invariants (sdf : V4 → V4 → V4 → V4) (dx dy dz : V4) :
    (∀ (fuel : Nat) (st : MarchState) (i : Fin 4), st.active i = false →
        (marchGo sdf dx dy dz fuel st).1.px i = st.px i
        ∧ (marchGo sdf dx dy dz fuel st).1.py i = st.py i
        ∧ (marchGo sdf dx dy dz fuel st).1.pz i = st.pz i
        ∧ (marchGo sdf dx dy dz fuel st).1.total_dist i = st.total_dist i
        ∧ (marchGo sdf dx dy dz fuel st).1.active i = false)
    ∧ (∀ (fuel : Nat) (st : MarchState) (i : Fin 4), st.accumulated_hit i = true →
        (marchGo sdf dx dy dz fuel st).1.accumulated_hit i = true)
    ∧ (∀ ox oy oz : V4, (march_rays_batch sdf ox oy oz dx dy dz).2 ≤ 64)
    ∧ (∀ (fuel : Nat) (st : MarchState), 1 ≤ fuel →
        anyActive (marchMask sdf st) = false →
        marchGo sdf dx dy dz fuel st = (marchMask sdf st, 1)) := by
  have hfreeze : ∀ (fuel : Nat) (st : MarchState) (i : Fin 4), st.active i = false →
      (marchGo sdf dx dy dz fuel st).1.px i = st.px i
      ∧ (marchGo sdf dx dy dz fuel st).1.py i = st.py i
      ∧ (marchGo sdf dx dy dz fuel st).1.pz i = st.pz i
      ∧ (marchGo sdf dx dy dz fuel st).1.total_dist i = st.total_dist i
      ∧ (marchGo sdf dx dy dz fuel st).1.active i = false := by
    intro fuel
    induction fuel with
    | zero => intro st i h; exact ⟨rfl, rfl, rfl, rfl, h⟩
    | succ n ih =>
      intro st i h
      rw [marchGo]
      have h1 : (marchMask sdf st).active i = false := marchMask_active_false sdf st i h
      by_cases hany : anyActive (marchMask sdf st) = true
      · rw [if_pos hany]
        have h2 := marchAdvance_frozen sdf dx dy dz (marchMask sdf st) i h1
        have h3 : (marchAdvance sdf dx dy dz (marchMask sdf st)).active i = false := h1
        have := ih (marchAdvance sdf dx dy dz (marchMask sdf st)) i h3
        refine ⟨?_, ?_, ?_, ?_, this.2.2.2.2⟩
        · rw [this.1, h2.1]; rfl
        · rw [this.2.1, h2.2.1]; rfl
        · rw [this.2.2.1, h2.2.2.1]; rfl
        · rw [this.2.2.2.1, h2.2.2.2]; rfl
      · rw [if_neg hany]
        exact ⟨rfl, rfl, rfl, rfl, h1⟩
  have hsticky : ∀ (fuel : Nat) (st : MarchState) (i : Fin 4),
      st.accumulated_hit i = true →
      (marchGo sdf dx dy dz fuel st).1.accumulated_hit i = true := by
    intro fuel
    induction fuel with
    | zero => intro st i h; exact h
    | succ n ih =>
      intro st i h
      rw [marchGo]
      have h1 : (marchMask sdf st).accumulated_hit i = true := by
        simp [marchMask, h]
      by_cases hany : anyActive (marchMask sdf st) = true
      · rw [if_pos hany]
        exact ih (marchAdvance sdf dx dy dz (marchMask sdf st)) i h1
      · rw [if_neg hany]
        exact h1
  have hbound : ∀ (fuel : Nat) (st : MarchState),
      (marchGo sdf dx dy dz fuel st).2 ≤ fuel := by
    intro fuel
    induction fuel with
    | zero => intro st; exact le_refl 0
    | succ n ih =>
      intro st
      rw [marchGo]
      by_cases hany : anyActive (marchMask sdf st) = true
      · rw [if_pos hany]
        exact Nat.succ_le_succ (ih _)
      · rw [if_neg hany]
        exact Nat.succ_le_succ (Nat.zero_le n)
  refine ⟨hfreeze, hsticky, fun ox oy oz => hbound 64 _, ?_⟩
  intro fuel st hfuel hany
  cases fuel with
  | zero => exact absurd hfuel (by simp)
  | succ n =>
    rw [marchGo, if_neg (by rw [hany]; simp)]

/-- Witness for C4: a constant scene SDF of 1, with all lanes already
inactive (and all hits accumulated) at loop entry. -/
theorem c4_march_lane_invariants_witness :
    ((marchGo (fun _ _ _ => V4.splat 1) (V4.splat 1) (V4.splat 0) (V4.splat 0) 2
        ⟨V4.splat 0, V4.splat 0, V4.splat 0, V4.splat 0, fun _ => false, fun _ => true⟩).1.px 0
      = (⟨V4.splat 0, V4.splat 0, V4.splat 0, V4.splat 0, fun _ => false, fun _ => true⟩ :
          MarchState).px 0)
    ∧ ((marchGo (fun _ _ _ => V4.splat 1) (V4.splat 1) (V4.splat 0) (V4.splat 0) 2
        ⟨V4.splat 0, V4.splat 0, V4.splat 0, V4.splat 0, fun _ => false, fun _ => true⟩).1.accumulated_hit 0
      = true)
    ∧ ((march_rays_batch (fun _ _ _ => V4.splat 1) (V4.splat 0) (V4.splat 0) (V4.splat 0)
        (V4.splat 1) (V4.splat 0) (V4.splat 0)).2 ≤ 64)
    ∧ (marchGo (fun _ _ _ => V4.splat 1) (V4.splat 1) (V4.splat 0) (V4.splat 0) 1
        ⟨V4.splat 0, V4.splat 0, V4.splat 0, V4.splat 0, fun _ => false, fun _ => true⟩
      = (marchMask (fun _ _ _ => V4.splat 1)
          ⟨V4.splat 0, V4.splat 0, V4.splat 0, V4.splat 0, fun _ => false, fun _ => true⟩, 1)) :=
  ⟨((c4_march_lane_invariants (fun _ _ _ => V4.splat 1) (V4.splat 1) (V4.splat 0)
      (V4.splat 0)).1 2
      ⟨V4.splat 0, V4.splat 0, V4.splat 0, V4.splat 0, fun _ => false, fun _ => true⟩ 0 rfl).1,
   (c4_march_lane_invariants (fun _ _ _ => V4.splat 1) (V4.splat 1) (V4.splat 0)
      (V4.splat 0)).2.1 2
      ⟨V4.splat 0, V4.splat 0, V4.splat 0, V4.splat 0, fun _ => false, fun _ => true⟩ 0 rfl,
   (c4_march_lane_invariants (fun _ _ _ => V4.splat 1) (V4.splat 1) (V4.splat 0)
      (V4.splat 0)).2.2.1 (V4.splat 0) (V4.splat 0) (V4.splat 0),
   (c4_march_lane_invariants (fun _ _ _ => V4.splat 1) (V4.splat 1) (V4.splat 0)
      (V4.splat 0)).2.2.2 1
      ⟨V4.splat 0, V4.splat 0, V4.splat 0, V4.splat 0, fun _ => false, fun _ => true⟩
      (le_refl 1) rfl⟩

/-! ## Compositing (`renderer.c`, single-glyph: lines 804-851,
half-blocks: lines 865-947) -/

/-- Pixel brightness as both compositors compute it:
`(r + g + b) * RGB_AVG_DIVISOR` with `RGB_AVG_DIVISOR = 0.333333`. -/
def pixel_brightness (r g b : ℚ) : ℚ := (r + g + b) * 0.333333

/-- The 10-level ASCII ramp `" .:-=+*#%@"`, as character codes. -/
def ascii_ramp : List Nat := [32, 46, 58, 45, 61, 43, 42, 35, 37, 64]

/-- The Bayer 2×2 ordered-dither offsets. -/
def bayer2x2 : List ℚ := [-0.075, 0, 0.0375, -0.0375]

/-- One cell of `composite` (single-glyph mode) at pixel `(row, col)` with
pixel color `(r, g, b)`: the cell's character code and its RGBA foreground.
The loop writes this at index `row * width + col`; the dither index is
`(row & 1) * 2 + (col & 1)`.  The C cast `(i32)(brightness * 9)` truncates
toward zero, which on the clamped nonnegative brightness is the floor. -/
def composite_cell (row col : Nat) (r g b : ℚ) : Nat × (ℚ × ℚ × ℚ × ℚ) :=
  let brightness0 := pixel_brightness r g b
  let dither_idx := row % 2 * 2 + col % 2
  let brightness1 := brightness0 + bayer2x2.getD dither_idx 0
  let brightness2 := if brightness1 < 0 then 0 else brightness1
  let brightness := if brightness2 > 1 then 1 else brightness2
  if r > 0.04 ∨ g > 0.04 ∨ b > 0.04 then
    let char_idx0 : ℤ := Int.floor (brightness * 9)
    let char_idx1 := if char_idx0 < 0 then 0 else char_idx0
    let char_idx := if char_idx1 > 9 then 9 else char_idx1
    (ascii_ramp.getD char_idx.toNat 0, (r, g, b, 1))
  else
    (64, (0.03, 0.05, 0.04, 1))

/-- C6 (counterexample): a pure white pixel at `(row, col) = (0, 0)` does
not composite to the top ramp glyph `'@'` (code 64): its dither offset is
`-0.075`, so the dithered brightness is `0.924999` and the ramp index is
`floor(9 * 0.924999) = 8`, glyph `'%'`. -/
theorem c6_composite_white_counterexample :
    composite_cell 0 0 1 1 1 ≠ (64, (1, 1, 1, 1)) := by
  norm_num [composite_cell, pixel_brightness, bayer2x2, ascii_ramp]
  decide

/-- C6 (amended): a pixel whose R, G and B are all below `0.04` composites
to glyph `'@'` (code 64) with the fixed dark foreground `(0.03, 0.05,
0.04)`; a pure white pixel (R=G=B=1, undithered brightness `3 * 0.333333 =
0.999999`) composites to the top ramp glyph `'@'` (index 9) with foreground
`(1,1,1)` exactly at positions with odd row and even column (dither offset
`+0.0375` pushes the brightness to the clamp at 1), and to ramp glyph
index 8 `'%'` with foreground `(1,1,1)` at every other position. -/
theorem c6_composite_extremes (row col : Nat) (r g b : ℚ) :
    (r < 0.04 → g < 0.04 → b < 0.04 →
      composite_cell row col r g b = (64, (0.03, 0.05, 0.04, 1)))
    ∧ composite_cell row col 1 1 1
        = if row % 2 = 1 ∧ col % 2 = 0 then (64, (1, 1, 1, 1))
          else (37, (1, 1, 1, 1)) := by
  constructor
  · intro hr hg hb
    have hc : ¬(r > 0.04 ∨ g > 0.04 ∨ b > 0.04) := by
      push_neg
      exact ⟨hr.le, hg.le, hb.le⟩
    simp only [composite_cell]
    rw [if_neg hc]
  · rcases Nat.mod_two_eq_zero_or_one row with hrow | hrow <;>
      rcases Nat.mod_two_eq_zero_or_one col with hcol | hcol <;>
      norm_num [composite_cell, pixel_brightness, bayer2x2, ascii_ramp, hrow, hcol] <;>
      decide

/-- Witness for C6 (amended): a dark pixel at `(0,0)` and the white pixel at
`(0,0)` (even row — glyph `'%'`). -/
theorem c6_composite_extremes_witness :
    composite_cell 0 0 0.01 0.01 0.01 = (64, (0.03, 0.05, 0.04, 1))
    ∧ composite_cell 0 0 1 1 1 = (37, (1, 1, 1, 1)) := by
  refine ⟨(c6_composite_extremes 0 0 0.01 0.01 0.01).1 (by norm_num) (by norm_num)
    (by norm_num), ?_⟩
  have h := (c6_composite_extremes 0 0 1 1 1).2
  simpa using h

/-- One cell of `composite_blocks` for a vertically adjacent pixel pair —
top `(tr, tg, tb)`, bottom `(br2, bg2, bb2)` — given the current scene
background color `bgc`: the cell's character code, RGBA foreground and RGBA
background.  A pixel is "on" when its brightness exceeds
`BG_THRESHOLD = 0.04`. -/
def composite_blocks_cell (tr tg tb br2 bg2 bb2 : ℚ) (bgc : ℚ × ℚ × ℚ) :
    Nat × (ℚ × ℚ × ℚ × ℚ) × (ℚ × ℚ × ℚ × ℚ) :=
  let top_bright := pixel_brightness tr tg tb
  let bot_bright := pixel_brightness br2 bg2 bb2
  if top_bright > 0.04 ∧ bot_bright > 0.04 then
    (0x2588, ((tr + br2) * 0.5, (tg + bg2) * 0.5, (tb + bb2) * 0.5, 1),
             ((tr + br2) * 0.5, (tg + bg2) * 0.5, (tb + bb2) * 0.5, 1))
  else if top_bright > 0.04 ∧ ¬(bot_bright > 0.04) then
    (0x2580, (tr, tg, tb, 1), (br2, bg2, bb2, 1))
  else if ¬(top_bright > 0.04) ∧ bot_bright > 0.04 then
    (0x2584, (br2, bg2, bb2, 1), (tr, tg, tb, 1))
  else
    (32, (bgc.1, bgc.2.1, bgc.2.2, 1), (bgc.1, bgc.2.1, bgc.2.2, 1))

/-- C7: a vertically adjacent pixel pair whose brightnesses are both at or
below `0.04` composites (in half-block mode) to the space glyph `' '` with
foreground and background both equal to the current scene background color —
whatever it is, in particular not the single-glyph mode's fixed dark
fallback `(0.03, 0.05, 0.04)` whenever the background differs from it. -/
theorem c7_blocks_both_dark (tr tg tb br2 bg2 bb2 : ℚ) (bgc : ℚ × ℚ × ℚ)
    (htop : pixel_brightness tr tg tb ≤ 0.04)
    (hbot : pixel_brightness br2 bg2 bb2 ≤ 0.04) :
    composite_blocks_cell tr tg tb br2 bg2 bb2 bgc
      = (32, (bgc.1, bgc.2.1, bgc.2.2, 1), (bgc.1, bgc.2.1, bgc.2.2, 1)) := by
  have h1 : ¬(pixel_brightness tr tg tb > 0.04) := not_lt.mpr htop
  have h2 : ¬(pixel_brightness br2 bg2 bb2 > 0.04) := not_lt.mpr hbot
  simp only [composite_blocks_cell]
  rw [if_neg (fun h => h1 h.1), if_neg (fun h => h1 h.1), if_neg (fun h => h2 h.2)]

/-- Witness for C7: black pixel pair over the background `(0.02, 0.02, 0.03)`. -/
theorem c7_blocks_both_dark_witness :
    composite_blocks_cell 0 0 0 0 0 0 (0.02, 0.02, 0.03)
      = (32, (0.02, 0.02, 0.03, 1), (0.02, 0.02, 0.03, 1)) :=
  c7_blocks_both_dark 0 0 0 0 0 0 (0.02, 0.02, 0.03)
    (by norm_num [pixel_brightness]) (by norm_num [pixel_brightness])

/-! ## Point-light falloff (spec section 4.3; no point-light code in `src/`) -/

/-- Modelled from the spec: `src/wasm/renderer.c` implements only the
directional light — the point-light shading code is not in `src/`.  Per the
spec, each point light adds
`color * intensity * ndotl_clamped / (1 + (dist/radius)^2)`,
with `ndotl_clamped = max(normal·light_direction, 0)` and `radius` the
falloff scale. -/
def point_light_contribution (color intensity ndotl dist radius : ℚ) : ℚ :=
  color * intensity * Max.max ndotl 0 / (1 + (dist / radius) ^ 2)

/-- C9: for every point light with positive color, intensity and radius —
(1) its shading contribution strictly decreases as the surface-to-light
distance increases over lit surfaces (`normal·light_direction > 0`); (2) the
contribution is exactly zero whenever `normal·light_direction ≤ 0` (light
behind the surface). -/
theorem c9_point_light_falloff (color intensity radius : ℚ)
    (hc : 0 < color) (hi : 0 < intensity) (hr : 0 < radius) :
    (∀ ndotl d1 d2 : ℚ, 0 < ndotl → 0 ≤ d1 → d1 < d2 →
        point_light_contribution color intensity ndotl d2 radius
          < point_light_contribution color intensity ndotl d1 radius)
    ∧ (∀ ndotl dist : ℚ, ndotl ≤ 0 →
        point_light_contribution color intensity ndotl dist radius = 0) := by
  constructor
  · intro n d1 d2 hn hd1 hlt
    unfold point_light_contribution
    have hnum : 0 < color * intensity * Max.max n 0 := by
      rw [max_eq_left hn.le]
      positivity
    have hden1 : 0 < 1 + (d1 / radius) ^ 2 := by positivity
    have hmono : 1 + (d1 / radius) ^ 2 < 1 + (d2 / radius) ^ 2 := by
      have hq : d1 / radius < d2 / radius := (div_lt_div_iff_of_pos_right hr).mpr hlt
      nlinarith [div_nonneg hd1 hr.le]
    exact div_lt_div_of_pos_left hnum hden1 hmono
  · intro n dist hn
    unfold point_light_contribution
    rw [max_eq_right hn]
    simp

/-- Witness for C9: unit color, intensity and radius; the contribution at
distance 1 is below the contribution at distance 0, and a backlit surface
(`ndotl = -1`) receives exactly zero. -/
theorem c9_point_light_falloff_witness :
    point_light_contribution 1 1 1 1 1 < point_light_contribution 1 1 1 0 1
    ∧ point_light_contribution 1 1 (-1) 5 1 = 0 :=
  ⟨(c9_point_light_falloff 1 1 1 one_pos one_pos one_pos).1 1 0 1 one_pos
      (le_refl 0) one_pos,
   (c9_point_light_falloff 1 1 1 one_pos one_pos one_pos).2 (-1) 5 (by norm_num)⟩
